import Mathlib

/-!
Verification of the Conway Game-of-Life universe engine (`universe.py`).

The Python class `ConwayUniverse` stores its grid in a numpy matrix of
shape `(width, height)` indexed as `grid[x, y]`.  We embed the grid as a
function `Nat → Nat → Int` together with the dimensions, and reproduce the
numpy indexing semantics explicitly: an integer index `i` into an axis of
size `dim` is valid iff `-dim ≤ i ≤ dim - 1`, negative indices aliasing to
`i + dim`, and anything else raising `IndexError`.

Fallible Python code is embedded with `Except Fault`; a Python function
that falls off the end (returning `None`) is embedded with `Option` in the
success value.
-/

namespace Conway

/-- Which axis an index error message names (`ERR_WIDTH` / `ERR_HEIGHT`). -/
inductive Axis
  | width
  | height
deriving DecidableEq, Repr

/-- Faults the embedded code can raise.

* `conwayIndexError axis i`: the `ConwayIndexError` raised by
  `__getitem__` / `__setitem__` with the `ERR_WIDTH`/`ERR_HEIGHT` message
  formatted with the offending index `i`.
* `unboundLocal`: in `__getitem__`/`__setitem__`, when an `IndexError`
  occurred but neither `key[0] > width - 1` nor `key[1] > height - 1`
  holds, the local variable `message` is never assigned and the
  `raise ConwayIndexError(message)` line itself raises `UnboundLocalError`.
* `attributeError`: Python's `AttributeError` from assigning to a
  property that defines no setter.
* `typeError`: e.g. storing `None` into an integer numpy matrix.
* `indexError`: a plain numpy `IndexError` escaping uncaught. -/
inductive Fault
  | conwayIndexError (axis : Axis) (offending : Int)
  | unboundLocal
  | attributeError
  | typeError
  | indexError
deriving DecidableEq, Repr

/-- True for the `ConwayUniverseError` family defined in `universe.py`
(`ConwayIndexError`, `ConwayValueError`); false for Python builtins. -/
def isConwayError : Fault → Bool
  | .conwayIndexError _ _ => true
  | _ => false

/-- The grid storage: cell states indexed by `(x, y)` in
`[0, width) × [0, height)`.  Values outside that rectangle are irrelevant
junk (numpy would not store them); all access goes through the numpy
indexing wrappers below. -/
abbrev Grid := Nat → Nat → Int

/-- The `ConwayUniverse` instance state: `width`, `height`, `cycles`,
`boundary`, `quiet` and the matrix `__unimat`. -/
structure Universe where
  width : Nat
  height : Nat
  cycles : Nat
  boundary : Bool
  quiet : Bool
  cells : Grid

/-- `CELL_ALIVE = 1` -/
def CELL_ALIVE : Int := 1

/-- `CELL_DEAD = 0` -/
def CELL_DEAD : Int := 0

/-- `CELL_INACTIVE = -1` (the OUT_OF_BOUNDS sentinel) -/
def CELL_INACTIVE : Int := -1

/-- numpy index resolution on one axis of size `dim`: index `i` is valid
iff `-dim ≤ i ≤ dim - 1`; a negative valid index aliases to `i + dim`.
Returns `none` on `IndexError`. -/
def npIndex (i : Int) (dim : Nat) : Option Nat :=
  if 0 ≤ i ∧ i < (dim : Int) then some i.toNat
  else if -(dim : Int) ≤ i ∧ i < 0 then some (i + dim).toNat
  else none

/-- `ConwayUniverse.__getitem__` for a two-integer key.
`self.__unimat.__getitem__(key)` succeeds for any numpy-valid pair (this
includes negative aliasing).  On `IndexError`: if `boundary` is false the
method silently `return`s `None`; otherwise it raises `ConwayIndexError`
with `ERR_WIDTH` if `key[0] > width - 1`, else `ERR_HEIGHT` if
`key[1] > height - 1`, else trips over the unassigned `message`. -/
def getItem (u : Universe) (x y : Int) : Except Fault (Option Int) :=
  match npIndex x u.width, npIndex y u.height with
  | some i, some j => .ok (some (u.cells i j))
  | _, _ =>
    if u.boundary = false then .ok none
    else if x > (u.width : Int) - 1 then .error (.conwayIndexError .width x)
    else if y > (u.height : Int) - 1 then .error (.conwayIndexError .height y)
    else .error .unboundLocal

/-- `ConwayUniverse.__setitem__`.  Same numpy semantics for the write; on
`IndexError` the same axis checks run (with no `boundary` shortcut). -/
def setItem (u : Universe) (x y : Int) (v : Int) : Except Fault Universe :=
  match npIndex x u.width, npIndex y u.height with
  | some i, some j =>
      .ok { u with cells := fun a b => if a = i ∧ b = j then v else u.cells a b }
  | _, _ =>
    if x > (u.width : Int) - 1 then .error (.conwayIndexError .width x)
    else if y > (u.height : Int) - 1 then .error (.conwayIndexError .height y)
    else .error .unboundLocal

/-- Reading `self[x, y]` in a context where the value is stored into an
integer numpy matrix: a `None` result (boundary-false swallow path) would
raise `TypeError` at the store. -/
def getItemInt (u : Universe) (x y : Int) : Except Fault Int :=
  match getItem u x y with
  | .ok (some v) => .ok v
  | .ok none => .error .typeError
  | .error e => .error e

/-- `ConwayUniverse.__translate_coordinate(coord, dimension)`:
identity when `boundary` is false; otherwise a single wrap:
`coord < 0 → dimension + coord`, `coord > dimension - 1 → coord - dimension`. -/
def translateCoordinate (boundary : Bool) (coord : Int) (dimension : Nat) : Int :=
  if boundary = false then coord
  else if coord < 0 then (dimension : Int) + coord
  else if coord > (dimension : Int) - 1 then coord - (dimension : Int)
  else coord

/-- `ConwayUniverse.__middle(arg) = int((len(arg) - 1) / 2)`. -/
def middleIdx (n : Nat) : Nat := (n - 1) / 2

/-- `ConwayUniverse.reshape(width=0, height=0)`: a fresh all-zero matrix;
zero arguments mean the universe's own dimensions.  (The shape only
matters for subsequent bounds-checked writes, which take it explicitly.) -/
def reshape (u : Universe) (width : Nat) (height : Nat) : Grid :=
  let _w := if width = 0 then u.width else width
  let _h := if height = 0 then u.height else height
  fun _ _ => 0

/-- A numpy `matrix[x, y] = v` store against a matrix of shape `(w, h)`:
`none` on `IndexError`, otherwise the updated grid (negative valid
indices alias). -/
def npSet (g : Grid) (w h : Nat) (x y : Int) (v : Int) : Option Grid :=
  match npIndex x w, npIndex y h with
  | some i, some j => some (fun a b => if a = i ∧ b = j then v else g a b)
  | _, _ => none

/-- Error-propagating `map` over a list (the element order of the Python
`for` loops building each neighbourhood row). -/
def mapME {α β : Type} (f : α → Except Fault β) : List α → Except Fault (List β)
  | [] => .ok []
  | a :: as =>
    match f a with
    | .error e => .error e
    | .ok b =>
      match mapME f as with
      | .error e => .error e
      | .ok bs => .ok (b :: bs)

/-- `ConwayUniverse.nhood_moore(x, y, depth)`.

The matrix starts as `reshape(dimension, dimension)` zeros.  Row `xd`
corresponds to the raw coordinate `i = x - depth + xd`.  When `boundary`
is false and the translated `actual_x` is out of `[0, width)`, the source
executes `moore[moore_x, moore_y] = -1; continue` while `moore_y` is still
`-1`, i.e. numpy writes the sentinel into the *last* column of the row and
the remaining columns keep their initial zeros: the row is
`replicate (dimension - 1) 0 ++ [-1]`.  Otherwise each cell `yd`
(raw `j = y - depth + yd`) is `-1` when boundary-false and `actual_y` is
out of `[0, height)`; else the grid is read through `self[...]` when
`boundary` is true or no translation occurred; else `-1`. -/
def nhoodMoore (u : Universe) (x y : Int) (depth : Nat) :
    Except Fault (List (List Int)) :=
  let dimension := 2 * depth + 1
  mapME (fun (xd : Nat) =>
    let i : Int := x - depth + xd
    let actual_x := translateCoordinate u.boundary i u.width
    if u.boundary = false ∧ (actual_x < 0 ∨ actual_x > (u.width : Int) - 1) then
      .ok (List.replicate (dimension - 1) 0 ++ [-1])
    else
      mapME (fun (yd : Nat) =>
        let j : Int := y - depth + yd
        let actual_y := translateCoordinate u.boundary j u.height
        if u.boundary = false ∧ (actual_y < 0 ∨ actual_y > (u.height : Int) - 1) then
          .ok (-1)
        else if u.boundary = true ∨ (actual_x = i ∧ actual_y = j) then
          getItemInt u actual_x actual_y
        else
          .ok (-1)) (List.range dimension)) (List.range dimension)

/-- `ConwayUniverse.nhood_vN(x, y, depth)`: starts from the Moore matrix,
computes the masked matrix in place — and then falls off the end of the
function, returning `None`.  The masked matrix is dead code. -/
def nhood_vN (u : Universe) (x y : Int) (depth : Nat) :
    Except Fault (Option (List (List Int))) :=
  match nhoodMoore u x y depth with
  | .error e => .error e
  | .ok nh =>
    let middle := middleIdx nh.length
    let _masked := nh.mapIdx (fun i row => row.mapIdx (fun j v =>
        if i ≠ middle ∧ j ≠ middle then -1 else v))
    .ok none

/-- `ConwayUniverse.nhood(x, y, depth=1, type="MOORE")`: dispatches on the
`type` string; any unknown type falls off the end returning `None`. -/
def nhood (u : Universe) (x y : Int) (depth : Nat) (type : String) :
    Except Fault (Option (List (List Int))) :=
  if type = "MOORE" then
    match nhoodMoore u x y depth with
    | .error e => .error e
    | .ok m => .ok (some m)
  else if type = "vN" then nhood_vN u x y depth
  else .ok none

/-- `self[:]`: the whole `width × height` matrix as a list of rows
(row `i` lists `grid[i, 0] … grid[i, height-1]`). -/
def gridMatrix (u : Universe) : List (List Int) :=
  (List.range u.width).map (fun i => (List.range u.height).map (fun j => u.cells i j))

/-- `(nhood == CELL_ALIVE).sum()`: the number of entries equal to 1. -/
def countOnes (m : List (List Int)) : Int :=
  ((m.map (fun row => row.countP (fun v => v = 1))).sum : Nat)

/-- `ConwayUniverse.count_nhood(nhood=None)`: `None` means the whole
grid (`self[:]`).  `middle_x` is computed from the length of row 0 and
`middle_y` from the length of row 1 (both are `(len - 1) / 2`); the count
of ALIVE cells is decremented when the cell at `(middle_x, middle_y)` is
ALIVE.  Each numpy row/cell access raises `IndexError` if out of range. -/
def countNhood (u : Universe) (nho : Option (List (List Int))) : Except Fault Int :=
  let nhood := nho.getD (gridMatrix u)
  match nhood.get? 0, nhood.get? 1 with
  | some row0, some row1 =>
    let middle_x := middleIdx row0.length
    let middle_y := middleIdx row1.length
    let count := countOnes nhood
    match nhood.get? middle_x with
    | some rowm =>
      match rowm.get? middle_y with
      | some c => .ok (if c = 1 then count - 1 else count)
      | none => .error .indexError
    | none => .error .indexError
  | _, _ => .error .indexError

/-- One row of `scipy.sparse.find(self.__unimat)`: the indices `(i, j)`
of the nonzero cells of row `i`, in ascending column order. -/
def cellsAliveRow (u : Universe) (i : Nat) : List (Nat × Nat) :=
  (List.range u.height).filterMap
    (fun j => if u.cells i j ≠ 0 then some (i, j) else none)

/-- `scipy.sparse.find(self.__unimat)` as the list of coordinates of
nonzero cells.  `find` converts the dense matrix to COO form via
`numpy.nonzero` and canonicalises with `sum_duplicates`, both of which
order the indices row-major: rows ascending, columns ascending within a
row. -/
def cellsAlive (u : Universe) : List (Nat × Nat) :=
  ((List.range u.width).map (cellsAliveRow u)).flatten

/-- The dead-neighbour (birth) loop body of `ConwayUniverse.run`,
iterating over the window positions `(xd, yd)` in
`range(len(nh)) × range(len(nh))`:

for each position whose matrix value is DEAD (`== 0`), the source sets
`nh_dead = self.nhood(x, y)` — note: the neighbourhood of the *alive*
cell `(x, y)` again, not of the dead neighbour — and when
`count_nhood(nh_dead) == 3` writes `True` into
`ucopy[translate(x - middle + xd), translate(y - middle + yd)]`,
swallowing an `IndexError` from that store (`continue`). -/
def birthPass (u : Universe) (x y : Nat) (nh : List (List Int)) (middle : Nat) :
    List (Nat × Nat) → Grid → Except Fault Grid
  | [], g => .ok g
  | (xd, yd) :: rest, g =>
    if (nh.getD xd []).getD yd (-2) = 0 then
      match nhood u x y 1 "MOORE" with
      | .error e => .error e
      | .ok nh_dead =>
        match countNhood u nh_dead with
        | .error e => .error e
        | .ok c =>
          if c = 3 then
            let actual_x := translateCoordinate u.boundary ((x : Int) - middle + xd) u.width
            let actual_y := translateCoordinate u.boundary ((y : Int) - middle + yd) u.height
            match npSet g u.width u.height actual_x actual_y 1 with
            | some g' => birthPass u x y nh middle rest g'
            | none => birthPass u x y nh middle rest g
          else birthPass u x y nh middle rest g
    else birthPass u x y nh middle rest g

/-- Processing of one alive cell `(x, y)` inside the per-generation loop
of `ConwayUniverse.run` (lines 320–356):

1. `nh = self.nhood(x, y)` and `nalive = self.count_nhood(nh)`,
   `middle = self.__middle(nh)`;
2. the provisional survival write `ucopy[x, y] = int(nalive == 2 or nalive == 3)`;
3. the dead-neighbour birth loop (`birthPass`);
4. the final overwrite
   `ucopy[translate(x), translate(y)] = int(nalive == 3)`. -/
def processCell (u : Universe) (g : Grid) (x y : Nat) : Except Fault Grid :=
  match nhood u (x : Int) (y : Int) 1 "MOORE" with
  | .error e => .error e
  | .ok nhO =>
    match countNhood u nhO with
    | .error e => .error e
    | .ok nalive =>
      match nhO with
      | none => .error .typeError
      | some nh =>
        let middle := middleIdx nh.length
        match npSet g u.width u.height (x : Int) (y : Int)
            (if nalive = 2 ∨ nalive = 3 then 1 else 0) with
        | none => .error .indexError
        | some g1 =>
          let pairs := (List.range nh.length).flatMap
            (fun xd => (List.range nh.length).map (fun yd => (xd, yd)))
          match birthPass u x y nh middle pairs g1 with
          | .error e => .error e
          | .ok g2 =>
            match npSet g2 u.width u.height
                (translateCoordinate u.boundary (x : Int) u.width)
                (translateCoordinate u.boundary (y : Int) u.height)
                (if nalive = 3 then 1 else 0) with
            | none => .error .indexError
            | some g3 => .ok g3

/-- The `for position in range(len(cells_alive[0]))` loop of `run`:
process every alive cell in order against the (unchanged) old grid `u`,
threading the `ucopy` accumulator. -/
def processAll (u : Universe) (g : Grid) : List (Nat × Nat) → Except Fault Grid
  | [] => .ok g
  | p :: rest =>
    match processCell u g p.1 p.2 with
    | .error e => .error e
    | .ok g' => processAll u g' rest

/-- One generation of `ConwayUniverse.run` (lines 312–358): allocate the
fresh all-dead `ucopy = self.reshape()`, process every alive cell of the
old grid, then install the result with the single assignment
`self.__unimat = ucopy`. -/
def generationStep (u : Universe) : Except Fault Universe :=
  match processAll u (reshape u 0 0) (cellsAlive u) with
  | .error e => .error e
  | .ok g => .ok { u with cells := g }

/-- The cycle loop of `ConwayUniverse.run`: before each generation, if the
grid has no alive cells the whole run returns early. -/
def runSim (u : Universe) : Nat → Except Fault Universe
  | 0 => .ok u
  | Nat.succ n =>
    if cellsAlive u = [] then .ok u
    else
      match generationStep u with
      | .error e => .error e
      | .ok u' => runSim u' n

/-- `ConwayUniverse.run()` (`seed` is a no-op `pass`). -/
def run (u : Universe) : Except Fault Universe := runSim u u.cycles

/-- Assigning to `u.width`.  The `width` property of `ConwayUniverse`
defines a getter only, so Python raises `AttributeError` on any
assignment; the `ERR_DIMENSIONS` message defined in the class is never
used by any code path. -/
def setWidth (_u : Universe) (_v : Nat) : Except Fault Universe :=
  .error .attributeError

/-- Assigning to `u.height`: getter-only property, `AttributeError`. -/
def setHeight (_u : Universe) (_v : Nat) : Except Fault Universe :=
  .error .attributeError

/-- Well-formedness of a constructed universe: positive dimensions and a
binary grid (every stored cell DEAD or ALIVE). -/
def WF (u : Universe) : Prop :=
  0 < u.width ∧ 0 < u.height ∧
    ∀ i, i < u.width → ∀ j, j < u.height → (u.cells i j = 0 ∨ u.cells i j = 1)

instance (u : Universe) : Decidable (WF u) := by
  unfold WF; infer_instance

/-- Row-major (lexicographic) order on cell coordinates — the order in
which `scipy.sparse.find` lists the alive cells. -/
def lexLt (p q : Nat × Nat) : Prop :=
  p.1 < q.1 ∨ (p.1 = q.1 ∧ p.2 < q.2)

instance (p q : Nat × Nat) : Decidable (lexLt p q) := by
  unfold lexLt; infer_instance

/-- A 5 × 5 toroidal universe holding a vertical blinker at
`(1,2), (2,2), (3,2)`. -/
def blinkerU : Universe :=
  ⟨5, 5, 1, true, true,
    fun i j => if (i = 1 ∧ j = 2) ∨ (i = 2 ∧ j = 2) ∨ (i = 3 ∧ j = 2) then 1 else 0⟩

/-- A 3 × 3 toroidal universe with a single alive cell at the centre. -/
def centerAliveU : Universe :=
  ⟨3, 3, 0, true, true, fun i j => if i = 1 ∧ j = 1 then 1 else 0⟩

/-- An empty 3 × 3 universe with `boundary=False`. -/
def edge3U : Universe := ⟨3, 3, 0, false, true, fun _ _ => 0⟩

/-- An empty 3 × 3 universe with `boundary=True`. -/
def torus3U : Universe :=
  ⟨3, 3, 0, true, true, fun i j => if i = 0 ∧ j = 0 then 1 else 0⟩

/-- A 4 × 4 toroidal universe holding a 2 × 2 block of alive cells at
rows/columns 1–2. -/
def block4U : Universe :=
  ⟨4, 4, 1, true, true, fun i j => if (i = 1 ∨ i = 2) ∧ (j = 1 ∨ j = 2) then 1 else 0⟩

/-! ### Basic lemmas about indexing and coordinate translation -/

theorem npIndex_inRange (i : Int) (dim : Nat) (h0 : 0 ≤ i) (h1 : i < (dim : Int)) :
    npIndex i dim = some i.toNat := by
  unfold npIndex
  rw [if_pos ⟨h0, h1⟩]

theorem npIndex_neg (i : Int) (dim : Nat) (h0 : -(dim : Int) ≤ i) (h1 : i < 0) :
    npIndex i dim = some (i + dim).toNat := by
  unfold npIndex
  rw [if_neg (by omega), if_pos ⟨h0, h1⟩]

theorem npIndex_ge (i : Int) (dim : Nat) (h : (dim : Int) ≤ i) :
    npIndex i dim = none := by
  unfold npIndex
  rw [if_neg (by omega), if_neg (by omega)]

theorem npIndex_deepNeg (i : Int) (dim : Nat) (h : i < -(dim : Int)) :
    npIndex i dim = none := by
  unfold npIndex
  rw [if_neg (by omega), if_neg (by omega)]

theorem npIndex_emod (i : Int) (dim : Nat) (_hdim : 0 < dim)
    (h0 : -(dim : Int) ≤ i) (h1 : i < (dim : Int)) :
    npIndex i dim = some (i % (dim : Int)).toNat := by
  rcases le_or_lt 0 i with hpos | hneg
  · rw [npIndex_inRange i dim hpos h1]
    rw [Int.emod_eq_of_lt hpos h1]
  · rw [npIndex_neg i dim h0 hneg]
    have hrw : i % (dim : Int) = (i + dim) % (dim : Int) := (Int.add_emod_self).symm
    rw [hrw, Int.emod_eq_of_lt (by omega) (by omega)]

theorem translate_false (i : Int) (dim : Nat) :
    translateCoordinate false i dim = i := by
  unfold translateCoordinate
  rw [if_pos rfl]

theorem translate_id (b : Bool) (i : Int) (dim : Nat)
    (h0 : 0 ≤ i) (h1 : i < (dim : Int)) :
    translateCoordinate b i dim = i := by
  unfold translateCoordinate
  cases b with
  | false => rw [if_pos rfl]
  | true =>
    rw [if_neg (by simp), if_neg (by omega), if_neg (by omega)]

theorem translate_true_neg (i : Int) (dim : Nat) (h : i < 0) :
    translateCoordinate true i dim = (dim : Int) + i := by
  unfold translateCoordinate
  rw [if_neg (by simp), if_pos h]

theorem translate_true_high (i : Int) (dim : Nat) (h0 : 0 ≤ i)
    (h : i > (dim : Int) - 1) :
    translateCoordinate true i dim = i - (dim : Int) := by
  unfold translateCoordinate
  rw [if_neg (by simp), if_neg (by omega), if_pos h]

theorem translate_true_mem (i : Int) (dim : Nat) (_hdim : 0 < dim)
    (hlo : -(dim : Int) ≤ i) (hhi : i ≤ 2 * (dim : Int) - 1) :
    0 ≤ translateCoordinate true i dim ∧ translateCoordinate true i dim < (dim : Int) := by
  unfold translateCoordinate
  split
  · simp_all
  · split
    · omega
    · split <;> omega

theorem getItem_inRange (u : Universe) (x y : Int)
    (hx0 : 0 ≤ x) (hx : x < (u.width : Int)) (hy0 : 0 ≤ y) (hy : y < (u.height : Int)) :
    getItem u x y = .ok (some (u.cells x.toNat y.toNat)) := by
  unfold getItem
  rw [npIndex_inRange x u.width hx0 hx, npIndex_inRange y u.height hy0 hy]

theorem getItemInt_inRange (u : Universe) (x y : Int)
    (hx0 : 0 ≤ x) (hx : x < (u.width : Int)) (hy0 : 0 ≤ y) (hy : y < (u.height : Int)) :
    getItemInt u x y = .ok (u.cells x.toNat y.toNat) := by
  unfold getItemInt
  rw [getItem_inRange u x y hx0 hx hy0 hy]

theorem npSet_inRange (g : Grid) (w h : Nat) (x y : Int) (v : Int)
    (hx0 : 0 ≤ x) (hx : x < (w : Int)) (hy0 : 0 ≤ y) (hy : y < (h : Int)) :
    npSet g w h x y v =
      some (fun a b => if a = x.toNat ∧ b = y.toNat then v else g a b) := by
  unfold npSet
  rw [npIndex_inRange x w hx0 hx, npIndex_inRange y h hy0 hy]

/-! ### Characterisation of the Moore neighbourhood matrix -/

theorem mapME_ok {α β : Type} (f : α → Except Fault β) (g : α → β) :
    ∀ l : List α, (∀ a ∈ l, f a = .ok (g a)) → mapME f l = .ok (l.map g)
  | [], _ => rfl
  | a :: as, h => by
    unfold mapME
    rw [h a (List.mem_cons_self a as),
      mapME_ok f g as (fun b hb => h b (List.mem_cons_of_mem a hb))]
    rfl

/-- With `boundary = True`, every cell of `nhood_moore(x, y, depth)` is a
grid read at the translated coordinates, provided the translation lands in
range (single-wrap regime: valid centre, `depth` at most one dimension). -/
theorem nhoodMoore_true (u : Universe) (x y : Int) (depth : Nat)
    (hb : u.boundary = true) (hw : 0 < u.width) (hh : 0 < u.height)
    (hx0 : 0 ≤ x) (hx : x < (u.width : Int)) (hy0 : 0 ≤ y) (hy : y < (u.height : Int))
    (hdw : depth ≤ u.width) (hdh : depth ≤ u.height) :
    nhoodMoore u x y depth = .ok ((List.range (2 * depth + 1)).map (fun (xd : Nat) =>
      (List.range (2 * depth + 1)).map (fun (yd : Nat) =>
        u.cells (translateCoordinate true (x - depth + xd) u.width).toNat
                (translateCoordinate true (y - depth + yd) u.height).toNat))) := by
  unfold nhoodMoore
  dsimp only
  apply mapME_ok
  intro xd hxd
  rw [List.mem_range] at hxd
  dsimp only
  rw [hb]
  rw [if_neg (by simp)]
  apply mapME_ok
  intro yd hyd
  rw [List.mem_range] at hyd
  dsimp only
  rw [if_neg (by simp), if_pos (Or.inl rfl)]
  have htx := translate_true_mem (x - depth + xd) u.width hw (by omega) (by omega)
  have hty := translate_true_mem (y - depth + yd) u.height hh (by omega) (by omega)
  exact getItemInt_inRange u _ _ htx.1 htx.2 hty.1 hty.2

/-- With `boundary = False`, the Moore matrix never reads out-of-range
grid cells; a row whose raw x-coordinate is out of range is all zeros
except for a single sentinel in its *last* column, and within an in-range
row an out-of-range y yields the sentinel at its own position while
in-range positions read the grid directly (no wrapping). -/
theorem nhoodMoore_false (u : Universe) (x y : Int) (depth : Nat)
    (hb : u.boundary = false) :
    nhoodMoore u x y depth = .ok ((List.range (2 * depth + 1)).map (fun (xd : Nat) =>
      if x - depth + xd < 0 ∨ x - depth + xd > (u.width : Int) - 1 then
        List.replicate (2 * depth) 0 ++ [-1]
      else (List.range (2 * depth + 1)).map (fun (yd : Nat) =>
        if y - depth + yd < 0 ∨ y - depth + yd > (u.height : Int) - 1 then -1
        else u.cells (x - depth + xd).toNat (y - depth + yd).toNat))) := by
  unfold nhoodMoore
  dsimp only
  apply mapME_ok
  intro xd hxd
  rw [List.mem_range] at hxd
  dsimp only
  rw [hb, translate_false]
  by_cases hox : x - depth + xd < 0 ∨ x - depth + xd > (u.width : Int) - 1
  · rw [if_pos ⟨rfl, hox⟩, if_pos hox]
    rfl
  · rw [if_neg (by simp [hox]), if_neg hox]
    apply mapME_ok
    intro yd hyd
    rw [List.mem_range] at hyd
    dsimp only
    rw [translate_false]
    by_cases hoy : y - depth + yd < 0 ∨ y - depth + yd > (u.height : Int) - 1
    · rw [if_pos ⟨rfl, hoy⟩, if_pos hoy]
    · rw [if_neg (by simp [hoy]), if_neg hoy, if_pos (Or.inr ⟨rfl, rfl⟩)]
      exact getItemInt_inRange u _ _ (by omega) (by omega) (by omega) (by omega)

/-- Element access into a mapped range. -/
theorem getD_map_range {β : Type} (f : Nat → β) (n k : Nat) (hk : k < n) (d : β) :
    ((List.range n).map f).getD k d = f k := by
  rw [List.getD_eq_getElem?_getD, List.getElem?_map, List.getElem?_range hk]
  rfl

/-! ### Lemmas about `count_nhood` -/

/-- `count_nhood` on an explicit 3-row matrix whose first row has length 3
and whose middle row is explicit: both middle indices resolve to 1, so the
count is corrected exactly when the middle cell `b1` is ALIVE. -/
theorem countNhood_3x3 (u : Universe) (r0 r2 : List Int) (b0 b1 b2 : Int)
    (h0 : r0.length = 3) :
    countNhood u (some [r0, [b0, b1, b2], r2]) =
      .ok (if b1 = 1 then countOnes [r0, [b0, b1, b2], r2] - 1
           else countOnes [r0, [b0, b1, b2], r2]) := by
  unfold countNhood middleIdx
  simp [h0]

/-! ### The alive-cell enumeration -/

theorem cellsAliveRow_mem (u : Universe) (i a b : Nat) :
    (a, b) ∈ cellsAliveRow u i ↔ a = i ∧ b < u.height ∧ u.cells i b ≠ 0 := by
  unfold cellsAliveRow
  rw [List.mem_filterMap]
  constructor
  · rintro ⟨j, hj, hf⟩
    rw [List.mem_range] at hj
    by_cases hc : u.cells i j ≠ 0
    · rw [if_pos hc] at hf
      cases hf
      exact ⟨rfl, hj, hc⟩
    · rw [if_neg hc] at hf
      cases hf
  · rintro ⟨rfl, h2, h3⟩
    exact ⟨b, List.mem_range.mpr h2, by rw [if_pos h3]⟩

theorem cellsAlive_mem (u : Universe) (a b : Nat) :
    (a, b) ∈ cellsAlive u ↔ a < u.width ∧ b < u.height ∧ u.cells a b ≠ 0 := by
  unfold cellsAlive
  rw [List.mem_flatten]
  constructor
  · rintro ⟨l, hl, hp⟩
    rw [List.mem_map] at hl
    obtain ⟨i, hi, rfl⟩ := hl
    rw [List.mem_range] at hi
    rw [cellsAliveRow_mem] at hp
    obtain ⟨rfl, h2, h3⟩ := hp
    exact ⟨hi, h2, h3⟩
  · rintro ⟨h1, h2, h3⟩
    exact ⟨cellsAliveRow u a, List.mem_map.mpr ⟨a, List.mem_range.mpr h1, rfl⟩,
      (cellsAliveRow_mem u a a b).mpr ⟨rfl, h2, h3⟩⟩

theorem cellsAliveRow_fst (u : Universe) (i : Nat) (p : Nat × Nat)
    (hp : p ∈ cellsAliveRow u i) : p.1 = i := by
  obtain ⟨a, b⟩ := p
  exact ((cellsAliveRow_mem u i a b).mp hp).1

/-- `scipy.sparse.find` lists the alive cells in strictly increasing
row-major order. -/
theorem cellsAlive_pairwise (u : Universe) : List.Pairwise lexLt (cellsAlive u) := by
  unfold cellsAlive
  rw [List.pairwise_flatten]
  constructor
  · intro l hl
    rw [List.mem_map] at hl
    obtain ⟨i, _, rfl⟩ := hl
    unfold cellsAliveRow
    rw [List.pairwise_filterMap]
    refine (List.pairwise_lt_range u.height).imp ?_
    intro j j' hjj p hp q hq
    rw [Option.mem_def] at hp hq
    by_cases hc : u.cells i j ≠ 0
    · rw [if_pos hc] at hp
      by_cases hc' : u.cells i j' ≠ 0
      · rw [if_pos hc'] at hq
        cases hp
        cases hq
        exact Or.inr ⟨rfl, hjj⟩
      · rw [if_neg hc'] at hq
        cases hq
    · rw [if_neg hc] at hp
      cases hp
  · rw [List.pairwise_map]
    refine (List.pairwise_lt_range u.width).imp ?_
    intro i i' hii p hp q hq
    exact Or.inl (by
      rw [cellsAliveRow_fst u i p hp, cellsAliveRow_fst u i' q hq]
      exact hii)

/-! ### Unfolding lemmas for the per-cell update -/

theorem nhood_MOORE (u : Universe) (x y : Int) (d : Nat) (m : List (List Int))
    (h : nhoodMoore u x y d = .ok m) : nhood u x y d "MOORE" = .ok (some m) := by
  unfold nhood
  rw [if_pos rfl, h]

/-- `count_nhood` on any 3 × 3 matrix: both middle indices are 1, so the
result is the ALIVE count, corrected when the centre cell is ALIVE. -/
theorem countNhood_ok_shape (u : Universe) (m : List (List Int))
    (hm : m.length = 3) (hr : ∀ r ∈ m, r.length = 3) :
    countNhood u (some m) =
      .ok (if (m.getD 1 []).getD 1 0 = 1 then countOnes m - 1 else countOnes m) := by
  obtain ⟨r0, r1, r2, rfl⟩ := List.length_eq_three.mp hm
  have h0 : r0.length = 3 := hr r0 (by simp)
  have h1 : r1.length = 3 := hr r1 (by simp)
  obtain ⟨b0, b1, b2, rfl⟩ := List.length_eq_three.mp h1
  rw [countNhood_3x3 u r0 r2 b0 b1 b2 h0]
  rfl

theorem processCell_eq (u : Universe) (g : Grid) (x y : Nat)
    (nh : List (List Int)) (n : Int)
    (hnh : nhoodMoore u x y 1 = .ok nh) (hcnt : countNhood u (some nh) = .ok n) :
    processCell u g x y =
      match npSet g u.width u.height x y (if n = 2 ∨ n = 3 then 1 else 0) with
      | none => .error .indexError
      | some g1 =>
        match birthPass u x y nh (middleIdx nh.length)
            ((List.range nh.length).flatMap
              (fun xd => (List.range nh.length).map (fun yd => (xd, yd)))) g1 with
        | .error e => .error e
        | .ok g2 =>
          match npSet g2 u.width u.height
              (translateCoordinate u.boundary x u.width)
              (translateCoordinate u.boundary y u.height)
              (if n = 3 then 1 else 0) with
          | none => .error .indexError
          | some g3 => .ok g3 := by
  unfold processCell
  rw [nhood_MOORE u x y 1 nh hnh]
  dsimp only
  rw [hcnt]

theorem birthPass_cons (u : Universe) (x y : Nat) (nh : List (List Int)) (middle : Nat)
    (xd yd : Nat) (ps : List (Nat × Nat)) (g : Grid) (n : Int)
    (hnh : nhoodMoore u x y 1 = .ok nh) (hcnt : countNhood u (some nh) = .ok n) :
    birthPass u x y nh middle ((xd, yd) :: ps) g =
      if (nh.getD xd []).getD yd (-2) = 0 then
        (if n = 3 then
          match npSet g u.width u.height
              (translateCoordinate u.boundary ((x : Int) - middle + xd) u.width)
              (translateCoordinate u.boundary ((y : Int) - middle + yd) u.height) 1 with
          | some g' => birthPass u x y nh middle ps g'
          | none => birthPass u x y nh middle ps g
        else birthPass u x y nh middle ps g)
      else birthPass u x y nh middle ps g := by
  conv_lhs => unfold birthPass
  by_cases hz : (nh.getD xd []).getD yd (-2) = 0
  · rw [if_pos hz, if_pos hz, nhood_MOORE u x y 1 nh hnh]
    dsimp only
    rw [hcnt]
  · rw [if_neg hz, if_neg hz]

theorem pairs_mem_bound (m : Nat) (p : Nat × Nat)
    (hp : p ∈ (List.range m).flatMap
      (fun xd => (List.range m).map (fun yd => (xd, yd)))) :
    p.1 < m ∧ p.2 < m := by
  rw [List.mem_flatMap] at hp
  obtain ⟨xd, hxd, hmem⟩ := hp
  rw [List.mem_range] at hxd
  rw [List.mem_map] at hmem
  obtain ⟨yd, hyd, rfl⟩ := hmem
  rw [List.mem_range] at hyd
  exact ⟨hxd, hyd⟩

/-! ### Safety of the birth writes with respect to already-final cells

A birth write of `run`'s dead-neighbour loop never hits a cell that is
alive in the old grid and was already processed (i.e. strictly earlier in
the row-major order).  With `boundary=True` every birth write targets the
very cell whose DEAD value was read from the window.  With
`boundary=False` the leaked zeros of a skipped row can alias (via numpy
index `-1`) into the last row, but only when the cell being processed is
in row 0, and in row-major order row 0 is processed before the last row —
except when `width = 1`, where the neighbour count can never reach 3. -/

theorem entry_safe_true (u : Universe) (x y vx vy : Nat) (nh : List (List Int))
    (n : Int) (hb : u.boundary = true) (hWF : WF u)
    (hvalive : u.cells vx vy = 1)
    (hx : x < u.width) (hy : y < u.height)
    (hnh : nhoodMoore u x y 1 = .ok nh) :
    ∀ xd yd : Nat, xd < 3 → yd < 3 → (nh.getD xd []).getD yd (-2) = 0 → n = 3 →
      ∀ g g'', npSet g u.width u.height
          (translateCoordinate u.boundary ((x : Int) - 1 + xd) u.width)
          (translateCoordinate u.boundary ((y : Int) - 1 + yd) u.height) 1 = some g'' →
        g'' vx vy = g vx vy := by
  intro xd yd hxd hyd hz _h3 g g'' hset
  obtain ⟨hw, hh, _hcells⟩ := hWF
  have hexp := nhoodMoore_true u x y 1 hb hw hh (by positivity)
    (by exact_mod_cast hx) (by positivity) (by exact_mod_cast hy) hw hh
  rw [hnh] at hexp
  injection hexp with hexp
  rw [hexp, getD_map_range _ _ xd (by omega), getD_map_range _ _ yd (by omega)] at hz
  simp only [Nat.cast_one] at hz
  rw [hb] at hset
  have htx := translate_true_mem ((x : Int) - 1 + xd) u.width hw (by omega) (by omega)
  have hty := translate_true_mem ((y : Int) - 1 + yd) u.height hh (by omega) (by omega)
  rw [npSet_inRange _ _ _ _ _ _ htx.1 htx.2 hty.1 hty.2] at hset
  cases hset
  by_cases hcol : vx = (translateCoordinate true ((x : Int) - 1 + xd) u.width).toNat ∧
      vy = (translateCoordinate true ((y : Int) - 1 + yd) u.height).toNat
  · exfalso
    rw [hcol.1, hcol.2] at hvalive
    rw [hvalive] at hz
    exact absurd hz (by norm_num)
  · exact if_neg hcol

/-- Any 3 × 3 matrix whose outer rows are the x-skip rows `[0, 0, -1]`
holds at most 3 ALIVE cells. -/
theorem countOnes_skiprows_le (r1 : List Int) (h1 : r1.length = 3) :
    countOnes [[0, 0, -1], r1, [0, 0, -1]] ≤ 3 := by
  obtain ⟨a, b, c, rfl⟩ := List.length_eq_three.mp h1
  unfold countOnes
  simp only [List.map_cons, List.map_nil, List.sum_cons, List.sum_nil,
    List.countP_cons, List.countP_nil]
  norm_num
  split_ifs <;> omega

/-- With `boundary=False` and `width = 1`, the depth-1 neighbourhood of an
alive cell `(0, y)` counts at most 2: the two x-skipped rows contribute
nothing and the centre is excluded. -/
theorem count_w1_le_two (u : Universe) (y : Nat) (n : Int)
    (hb : u.boundary = false) (hw1 : u.width = 1)
    (hy : y < u.height) (hyalive : u.cells 0 y = 1)
    (nh : List (List Int))
    (hnh : nhoodMoore u 0 y 1 = .ok nh)
    (hcnt : countNhood u (some nh) = .ok n) : n ≤ 2 := by
  have hexp := nhoodMoore_false u 0 y 1 hb
  rw [hnh] at hexp
  injection hexp with hexp
  rw [hw1] at hexp
  rw [show (List.range (2 * 1 + 1)) = [0, 1, 2] from rfl] at hexp
  simp only [List.map_cons, List.map_nil] at hexp
  norm_num at hexp
  subst hexp
  rw [show List.replicate 2 (0 : Int) ++ [-1] = [0, 0, -1] from rfl] at hcnt
  have hf : (if (y : Int) < 0 ∨ (u.height : Int) - 1 < (y : Int) then (-1 : Int)
      else u.cells 0 y) = 1 := by
    rw [if_neg (by omega), hyalive]
  rw [hf] at hcnt
  rw [countNhood_3x3 u [0, 0, -1] [0, 0, -1] _ 1 _ rfl, if_pos rfl] at hcnt
  injection hcnt with hcnt
  have hbound := countOnes_skiprows_le
    [if y = 0 ∨ u.height < y then -1 else u.cells 0 (y - 1), 1,
     if (y : Int) - 1 + 2 < 0 ∨ (u.height : Int) - 1 < (y : Int) - 1 + 2 then -1
     else u.cells 0 ((y : Int) - 1 + 2).toNat] rfl
  omega

theorem entry_safe_false (u : Universe) (x y vx vy : Nat) (nh : List (List Int))
    (n : Int) (hb : u.boundary = false) (hWF : WF u)
    (hvalive : u.cells vx vy = 1)
    (hx : x < u.width) (hy : y < u.height) (hxalive : u.cells x y = 1)
    (hlex : lexLt (vx, vy) (x, y))
    (hnh : nhoodMoore u x y 1 = .ok nh)
    (hcnt : countNhood u (some nh) = .ok n) :
    ∀ xd yd : Nat, xd < 3 → yd < 3 → (nh.getD xd []).getD yd (-2) = 0 → n = 3 →
      ∀ g g'', npSet g u.width u.height
          (translateCoordinate u.boundary ((x : Int) - 1 + xd) u.width)
          (translateCoordinate u.boundary ((y : Int) - 1 + yd) u.height) 1 = some g'' →
        g'' vx vy = g vx vy := by
  intro xd yd hxd hyd hz h3 g g'' hset
  obtain ⟨hw, hh, _hcells⟩ := hWF
  have hexp := nhoodMoore_false u x y 1 hb
  rw [hnh] at hexp
  injection hexp with hexp
  rw [hb, translate_false, translate_false] at hset
  rw [hexp, getD_map_range _ _ xd (by omega)] at hz
  simp only [Nat.cast_one] at hz
  by_cases hox : (x : Int) - 1 + xd < 0 ∨ (x : Int) - 1 + xd > (u.width : Int) - 1
  · rw [if_pos hox] at hz
    rcases hox with hneg | hhigh
    · -- raw row coordinate is -1: the write aliases into the last row
      have hx0 : x = 0 := by omega
      have hvx0 : vx = 0 ∧ vy < y := by
        rcases hlex with h | h
        · exact absurd h (by omega)
        · exact ⟨by omega, h.2⟩
      rcases Nat.lt_or_ge 1 u.width with hw2 | hw1
      · -- width ≥ 2: the aliased write lands in row width-1 ≠ 0 = vx
        unfold npSet at hset
        rw [npIndex_neg _ _ (by omega) (by omega)] at hset
        cases hay : npIndex ((y : Int) - 1 + yd) u.height with
        | none =>
          rw [hay] at hset
          cases hset
        | some j =>
          rw [hay] at hset
          injection hset with hset
          rw [← hset]
          apply if_neg
          rintro ⟨h1, _h2⟩
          omega
      · -- width = 1: impossible, the neighbour count never reaches 3
        exfalso
        have hwe : u.width = 1 := by omega
        subst hx0
        have hle := count_w1_le_two u y n hb hwe hy hxalive nh (by exact_mod_cast hnh) hcnt
        omega
    · -- raw row coordinate ≥ width: the write raises IndexError and is skipped
      unfold npSet at hset
      rw [npIndex_ge _ _ (by omega)] at hset
      cases hset
  · rw [if_neg hox, getD_map_range _ _ yd (by omega)] at hz
    by_cases hoy : (y : Int) - 1 + yd < 0 ∨ (y : Int) - 1 + yd > (u.height : Int) - 1
    · rw [if_pos hoy] at hz
      exact absurd hz (by norm_num)
    · rw [if_neg hoy] at hz
      rw [npSet_inRange _ _ _ _ _ _ (by omega) (by omega) (by omega) (by omega)] at hset
      injection hset with hset
      rw [← hset]
      by_cases hcol : vx = ((x : Int) - 1 + xd).toNat ∧ vy = ((y : Int) - 1 + yd).toNat
      · exfalso
        rw [hcol.1, hcol.2] at hvalive
        rw [hvalive] at hz
        exact absurd hz (by norm_num)
      · exact if_neg hcol

/-! ### Totality and effect of one alive cell's processing -/

theorem birthPass_ok (u : Universe) (x y : Nat) (nh : List (List Int)) (n : Int)
    (middle : Nat)
    (hnh : nhoodMoore u x y 1 = .ok nh) (hcnt : countNhood u (some nh) = .ok n) :
    ∀ ps g, ∃ g', birthPass u x y nh middle ps g = .ok g' := by
  intro ps
  induction ps with
  | nil => exact fun g => ⟨g, rfl⟩
  | cons p rest ih =>
    obtain ⟨xd, yd⟩ := p
    intro g
    rw [birthPass_cons u x y nh middle xd yd rest g n hnh hcnt]
    by_cases hz : (nh.getD xd []).getD yd (-2) = 0
    · rw [if_pos hz]
      by_cases h3 : n = 3
      · rw [if_pos h3]
        cases hset : npSet g u.width u.height
            (translateCoordinate u.boundary ((x : Int) - middle + xd) u.width)
            (translateCoordinate u.boundary ((y : Int) - middle + yd) u.height) 1 with
        | none => exact ih g
        | some g1 => exact ih g1
      · rw [if_neg h3]
        exact ih g
    · rw [if_neg hz]
      exact ih g

theorem processCell_full (u : Universe) (g : Grid) (x y : Nat)
    (nh : List (List Int)) (n : Int)
    (hx : x < u.width) (hy : y < u.height)
    (hnh : nhoodMoore u x y 1 = .ok nh) (hcnt : countNhood u (some nh) = .ok n) :
    ∃ g2, birthPass u x y nh (middleIdx nh.length)
        ((List.range nh.length).flatMap
          (fun xd => (List.range nh.length).map (fun yd => (xd, yd))))
        (fun a b => if a = x ∧ b = y then (if n = 2 ∨ n = 3 then 1 else 0) else g a b)
        = .ok g2 ∧
      processCell u g x y =
        .ok (fun a b => if a = x ∧ b = y then (if n = 3 then 1 else 0) else g2 a b) := by
  obtain ⟨g2, hbp⟩ := birthPass_ok u x y nh n (middleIdx nh.length) hnh hcnt
    ((List.range nh.length).flatMap
      (fun xd => (List.range nh.length).map (fun yd => (xd, yd))))
    (fun a b => if a = x ∧ b = y then (if n = 2 ∨ n = 3 then 1 else 0) else g a b)
  refine ⟨g2, hbp, ?_⟩
  rw [processCell_eq u g x y nh n hnh hcnt]
  rw [npSet_inRange _ _ _ _ _ _ (by positivity) (by exact_mod_cast hx)
    (by positivity) (by exact_mod_cast hy)]
  simp only [Int.toNat_natCast]
  rw [translate_id _ _ _ (by positivity) (by exact_mod_cast hx),
    translate_id _ _ _ (by positivity) (by exact_mod_cast hy)]
  rw [hbp]
  dsimp only
  rw [npSet_inRange _ _ _ _ _ _ (by positivity) (by exact_mod_cast hx)
    (by positivity) (by exact_mod_cast hy)]
  simp only [Int.toNat_natCast]

theorem nh_shape (u : Universe) (x y : Nat) (hWF : WF u)
    (hx : x < u.width) (hy : y < u.height) (nh : List (List Int))
    (hnh : nhoodMoore u x y 1 = .ok nh) :
    nh.length = 3 ∧ ∀ r ∈ nh, r.length = 3 := by
  obtain ⟨hw, hh, _⟩ := hWF
  cases hbv : u.boundary with
  | true =>
    have hexp := nhoodMoore_true u x y 1 hbv hw hh (by positivity)
      (by exact_mod_cast hx) (by positivity) (by exact_mod_cast hy) hw hh
    rw [hnh] at hexp
    injection hexp with hexp
    constructor
    · rw [hexp]; simp
    · intro r hr
      rw [hexp, List.mem_map] at hr
      obtain ⟨_, _, rfl⟩ := hr
      simp
  | false =>
    have hexp := nhoodMoore_false u x y 1 hbv
    rw [hnh] at hexp
    injection hexp with hexp
    constructor
    · rw [hexp]; simp
    · intro r hr
      rw [hexp, List.mem_map] at hr
      obtain ⟨xd, _, rfl⟩ := hr
      split
      · simp
      · simp

/-- No step of the dead-neighbour loop changes the `next` value of a cell
that is alive in the old grid and strictly earlier in row-major order,
provided every individual write is safe (`entry_safe_true` /
`entry_safe_false`). -/
theorem birthPass_preserves (u : Universe) (x y vx vy : Nat)
    (nh : List (List Int)) (n : Int)
    (hnh : nhoodMoore u x y 1 = .ok nh) (hcnt : countNhood u (some nh) = .ok n)
    (hsafe : ∀ xd yd : Nat, xd < 3 → yd < 3 →
      (nh.getD xd []).getD yd (-2) = 0 → n = 3 →
      ∀ g g'', npSet g u.width u.height
          (translateCoordinate u.boundary ((x : Int) - 1 + xd) u.width)
          (translateCoordinate u.boundary ((y : Int) - 1 + yd) u.height) 1 = some g'' →
        g'' vx vy = g vx vy) :
    ∀ ps : List (Nat × Nat), (∀ p ∈ ps, p.1 < 3 ∧ p.2 < 3) → ∀ g g',
      birthPass u x y nh 1 ps g = .ok g' → g' vx vy = g vx vy := by
  intro ps
  induction ps with
  | nil =>
    intro _ g g' hbp
    rw [show birthPass u x y nh 1 [] g = .ok g from rfl] at hbp
    injection hbp with hbp
    rw [← hbp]
  | cons p rest ih =>
    obtain ⟨xd, yd⟩ := p
    intro hmem g g' hbp
    have hbnd := hmem (xd, yd) (List.mem_cons_self _ _)
    have hmem' : ∀ q ∈ rest, q.1 < 3 ∧ q.2 < 3 :=
      fun q hq => hmem q (List.mem_cons_of_mem _ hq)
    rw [birthPass_cons u x y nh 1 xd yd rest g n hnh hcnt] at hbp
    by_cases hz : (nh.getD xd []).getD yd (-2) = 0
    · rw [if_pos hz] at hbp
      by_cases h3 : n = 3
      · rw [if_pos h3] at hbp
        simp only [Nat.cast_one] at hbp
        cases hset : npSet g u.width u.height
            (translateCoordinate u.boundary ((x : Int) - 1 + xd) u.width)
            (translateCoordinate u.boundary ((y : Int) - 1 + yd) u.height) 1 with
        | none =>
          rw [hset] at hbp
          exact ih hmem' g g' hbp
        | some g1 =>
          rw [hset] at hbp
          rw [ih hmem' g1 g' hbp]
          exact hsafe xd yd hbnd.1 hbnd.2 hz h3 g g1 hset
      · rw [if_neg h3] at hbp
        exact ih hmem' g g' hbp
    · rw [if_neg hz] at hbp
      exact ih hmem' g g' hbp

/-- Processing a later alive cell (in row-major order) never changes the
`next` value already written for an earlier alive cell. -/
theorem processCell_preserves (u : Universe) (x y vx vy : Nat) (g g' : Grid)
    (nh : List (List Int)) (n : Int) (hWF : WF u)
    (_hvx : vx < u.width) (_hvy : vy < u.height) (hvalive : u.cells vx vy = 1)
    (hx : x < u.width) (hy : y < u.height) (hxalive : u.cells x y = 1)
    (hlex : lexLt (vx, vy) (x, y))
    (hnh : nhoodMoore u x y 1 = .ok nh) (hcnt : countNhood u (some nh) = .ok n)
    (h : processCell u g x y = .ok g') : g' vx vy = g vx vy := by
  obtain ⟨g2, hbp, heq⟩ := processCell_full u g x y nh n hx hy hnh hcnt
  rw [heq] at h
  injection h with h
  rw [← h]
  dsimp only
  have hne : ¬(vx = x ∧ vy = y) := by
    rcases hlex with hl | hl
    · rintro ⟨rfl, _⟩
      exact absurd hl (lt_irrefl _)
    · rintro ⟨_, rfl⟩
      exact absurd hl.2 (lt_irrefl _)
  rw [if_neg hne]
  have hlen := (nh_shape u x y hWF hx hy nh hnh).1
  have hmid : middleIdx nh.length = 1 := by rw [hlen]; rfl
  rw [hmid, hlen] at hbp
  have hsafe : ∀ xd yd : Nat, xd < 3 → yd < 3 →
      (nh.getD xd []).getD yd (-2) = 0 → n = 3 →
      ∀ g g'', npSet g u.width u.height
          (translateCoordinate u.boundary ((x : Int) - 1 + xd) u.width)
          (translateCoordinate u.boundary ((y : Int) - 1 + yd) u.height) 1 = some g'' →
        g'' vx vy = g vx vy := by
    cases hbv : u.boundary with
    | true =>
      have he := entry_safe_true u x y vx vy nh n hbv hWF hvalive hx hy hnh
      rw [hbv] at he
      exact he
    | false =>
      have he := entry_safe_false u x y vx vy nh n hbv hWF hvalive hx hy hxalive
        hlex hnh hcnt
      rw [hbv] at he
      exact he
  have hfin := birthPass_preserves u x y vx vy nh n hnh hcnt hsafe
    ((List.range 3).flatMap (fun xd => (List.range 3).map (fun yd => (xd, yd))))
    (fun p hp => pairs_mem_bound 3 p hp) _ g2 hbp
  rw [hfin]
  rw [if_neg hne]

theorem nh_cnt_exists (u : Universe) (hWF : WF u) (x y : Nat)
    (hx : x < u.width) (hy : y < u.height) :
    ∃ nh n, nhoodMoore u x y 1 = .ok nh ∧ countNhood u (some nh) = .ok n := by
  have hok : ∃ nh, nhoodMoore u x y 1 = .ok nh := by
    obtain ⟨hw, hh, _⟩ := hWF
    cases hbv : u.boundary with
    | true => exact ⟨_, nhoodMoore_true u x y 1 hbv hw hh (by positivity)
        (by exact_mod_cast hx) (by positivity) (by exact_mod_cast hy) hw hh⟩
    | false => exact ⟨_, nhoodMoore_false u x y 1 hbv⟩
  obtain ⟨nh, hnh⟩ := hok
  obtain ⟨hlen, hrows⟩ := nh_shape u x y hWF hx hy nh hnh
  exact ⟨nh, _, hnh, countNhood_ok_shape u nh hlen hrows⟩

theorem processAll_ok (u : Universe) (hWF : WF u) :
    ∀ L : List (Nat × Nat), (∀ p ∈ L, p.1 < u.width ∧ p.2 < u.height) →
      ∀ g, ∃ gf, processAll u g L = .ok gf := by
  intro L
  induction L with
  | nil => exact fun _ g => ⟨g, rfl⟩
  | cons p rest ih =>
    obtain ⟨x, y⟩ := p
    intro hmem g
    have hb := hmem (x, y) (List.mem_cons_self _ _)
    obtain ⟨nh, n, hnh, hcnt⟩ := nh_cnt_exists u hWF x y hb.1 hb.2
    obtain ⟨g2, _, heq⟩ := processCell_full u g x y nh n hb.1 hb.2 hnh hcnt
    rw [show processAll u g ((x, y) :: rest) =
      (match processCell u g x y with
       | .error e => .error e
       | .ok g1 => processAll u g1 rest) from rfl]
    rw [heq]
    exact ih (fun q hq => hmem q (List.mem_cons_of_mem _ hq)) _

theorem processAll_preserves (u : Universe) (vx vy : Nat) (hWF : WF u)
    (hvx : vx < u.width) (hvy : vy < u.height) (hvalive : u.cells vx vy = 1) :
    ∀ L : List (Nat × Nat),
      (∀ p ∈ L, p.1 < u.width ∧ p.2 < u.height ∧ u.cells p.1 p.2 = 1 ∧
        lexLt (vx, vy) p) →
      ∀ g gf, processAll u g L = .ok gf → gf vx vy = g vx vy := by
  intro L
  induction L with
  | nil =>
    intro _ g gf h
    rw [show processAll u g [] = .ok g from rfl] at h
    injection h with h
    rw [← h]
  | cons p rest ih =>
    obtain ⟨x, y⟩ := p
    intro hmem g gf h
    have hb := hmem (x, y) (List.mem_cons_self _ _)
    obtain ⟨nh, n, hnh, hcnt⟩ := nh_cnt_exists u hWF x y hb.1 hb.2.1
    rw [show processAll u g ((x, y) :: rest) =
      (match processCell u g x y with
       | .error e => .error e
       | .ok g1 => processAll u g1 rest) from rfl] at h
    cases hpc : processCell u g x y with
    | error e =>
      rw [hpc] at h
      cases h
    | ok g1 =>
      rw [hpc] at h
      rw [ih (fun q hq => hmem q (List.mem_cons_of_mem _ hq)) g1 gf h]
      exact processCell_preserves u x y vx vy g g1 nh n hWF hvx hvy hvalive
        hb.1 hb.2.1 hb.2.2.1 hb.2.2.2 hnh hcnt hpc

theorem processAll_main (u : Universe) (vx vy : Nat) (nh : List (List Int)) (n : Int)
    (hWF : WF u) (hvx : vx < u.width) (hvy : vy < u.height)
    (hvalive : u.cells vx vy = 1)
    (hnh : nhoodMoore u vx vy 1 = .ok nh) (hcnt : countNhood u (some nh) = .ok n) :
    ∀ L : List (Nat × Nat), List.Pairwise lexLt L →
      (∀ p ∈ L, p.1 < u.width ∧ p.2 < u.height ∧ u.cells p.1 p.2 = 1) →
      (vx, vy) ∈ L →
      ∀ g gf, processAll u g L = .ok gf → gf vx vy = (if n = 3 then 1 else 0) := by
  intro L
  induction L with
  | nil =>
    intro _ _ hm
    cases hm
  | cons p rest ih =>
    obtain ⟨x, y⟩ := p
    intro hpw hmem hin g gf h
    rw [show processAll u g ((x, y) :: rest) =
      (match processCell u g x y with
       | .error e => .error e
       | .ok g1 => processAll u g1 rest) from rfl] at h
    rcases List.mem_cons.mp hin with heqp | hin'
    · injection heqp with h1 h2
      subst h1
      subst h2
      cases hpc : processCell u g vx vy with
      | error e =>
        rw [hpc] at h
        cases h
      | ok g1 =>
        rw [hpc] at h
        obtain ⟨g2, hbp, heq⟩ := processCell_full u g vx vy nh n hvx hvy hnh hcnt
        rw [heq] at hpc
        injection hpc with hpc
        have hval : g1 vx vy = (if n = 3 then 1 else 0) := by
          rw [← hpc]
          dsimp only
          rw [if_pos ⟨rfl, rfl⟩]
        have hpres := processAll_preserves u vx vy hWF hvx hvy hvalive rest
          (fun q hq => ⟨(hmem q (List.mem_cons_of_mem _ hq)).1,
            (hmem q (List.mem_cons_of_mem _ hq)).2.1,
            (hmem q (List.mem_cons_of_mem _ hq)).2.2,
            List.rel_of_pairwise_cons hpw hq⟩) g1 gf h
        rw [hpres, hval]
    · cases hpc : processCell u g x y with
      | error e =>
        rw [hpc] at h
        cases h
      | ok g1 =>
        rw [hpc] at h
        exact ih hpw.of_cons (fun q hq => hmem q (List.mem_cons_of_mem _ hq))
          hin' g1 gf h

/-! ### The generation depends only on dimensions, boundary mode and cells -/

theorem nhoodMoore_fields (w h cy cy' : Nat) (b q q' : Bool) (f : Grid)
    (x y : Int) (d : Nat) :
    nhoodMoore ⟨w, h, cy, b, q, f⟩ x y d = nhoodMoore ⟨w, h, cy', b, q', f⟩ x y d := rfl

theorem countNhood_fields (w h cy cy' : Nat) (b q q' : Bool) (f : Grid)
    (o : Option (List (List Int))) :
    countNhood ⟨w, h, cy, b, q, f⟩ o = countNhood ⟨w, h, cy', b, q', f⟩ o := rfl

theorem cellsAlive_fields (w h cy cy' : Nat) (b q q' : Bool) (f : Grid) :
    cellsAlive ⟨w, h, cy, b, q, f⟩ = cellsAlive ⟨w, h, cy', b, q', f⟩ := rfl

theorem nhood_fields (w h cy cy' : Nat) (b q q' : Bool) (f : Grid)
    (x y : Int) (d : Nat) (t : String) :
    nhood ⟨w, h, cy, b, q, f⟩ x y d t = nhood ⟨w, h, cy', b, q', f⟩ x y d t := rfl

theorem birthPass_fields (w h cy cy' : Nat) (b q q' : Bool) (f : Grid)
    (x y : Nat) (nh : List (List Int)) (middle : Nat) :
    ∀ (ps : List (Nat × Nat)) (g : Grid),
      birthPass ⟨w, h, cy, b, q, f⟩ x y nh middle ps g =
      birthPass ⟨w, h, cy', b, q', f⟩ x y nh middle ps g := by
  intro ps
  induction ps with
  | nil => exact fun g => rfl
  | cons p rest ih =>
    obtain ⟨xd, yd⟩ := p
    intro g
    conv_lhs => unfold birthPass
    conv_rhs => unfold birthPass
    simp only [nhood_fields w h cy cy' b q q' f,
      countNhood_fields w h cy cy' b q q' f, ih]

theorem processCell_fields (w h cy cy' : Nat) (b q q' : Bool) (f : Grid)
    (g : Grid) (x y : Nat) :
    processCell ⟨w, h, cy, b, q, f⟩ g x y =
      processCell ⟨w, h, cy', b, q', f⟩ g x y := by
  unfold processCell
  dsimp only
  simp only [nhood_fields w h cy cy' b q q' f,
    countNhood_fields w h cy cy' b q q' f,
    birthPass_fields w h cy cy' b q q' f]

theorem processAll_fields (w h cy cy' : Nat) (b q q' : Bool) (f : Grid) :
    ∀ (L : List (Nat × Nat)) (g : Grid),
      processAll ⟨w, h, cy, b, q, f⟩ g L = processAll ⟨w, h, cy', b, q', f⟩ g L := by
  intro L
  induction L with
  | nil => exact fun g => rfl
  | cons p rest ih =>
    intro g
    conv_lhs => unfold processAll
    conv_rhs => unfold processAll
    simp only [processCell_fields w h cy cy' b q q' f, ih]

theorem generationStep_fields (w h cy cy' : Nat) (b q q' : Bool) (f : Grid) :
    (generationStep ⟨w, h, cy, b, q, f⟩).map (fun v => v.cells) =
      (generationStep ⟨w, h, cy', b, q', f⟩).map (fun v => v.cells) := by
  unfold generationStep
  dsimp only
  rw [cellsAlive_fields w h cy cy' b q q' f]
  rw [show reshape ⟨w, h, cy, b, q, f⟩ 0 0 = reshape ⟨w, h, cy', b, q', f⟩ 0 0 from rfl]
  rw [processAll_fields w h cy cy' b q q' f]
  cases processAll ⟨w, h, cy', b, q', f⟩ (reshape ⟨w, h, cy', b, q', f⟩ 0 0)
      (cellsAlive ⟨w, h, cy', b, q', f⟩) with
  | error e => rfl
  | ok g => rfl

/-! ### Claim theorems -/

/-- C2: in the per-generation update of `run`, the final overwrite
`ucopy[x, y] = int(nalive == 3)` after the dead-neighbour pass means that
every alive cell of the old grid ends the generation ALIVE in the next
grid if and only if its live-neighbour count `n` is exactly 3 (the
provisional `n == 2 or n == 3` write is overwritten, and no later cell's
processing can touch this position again). -/
theorem c2_alive_final_exactly_three (u : Universe) (x y : Nat)
    (nh : List (List Int)) (n : Int) (hWF : WF u)
    (hx : x < u.width) (hy : y < u.height) (halive : u.cells x y = 1)
    (hnh : nhoodMoore u x y 1 = .ok nh) (hcnt : countNhood u (some nh) = .ok n) :
    (generationStep u).map (fun v => v.cells x y) =
      .ok (if n = 3 then (1 : Int) else 0) := by
  unfold generationStep
  have hmem : ∀ p ∈ cellsAlive u,
      p.1 < u.width ∧ p.2 < u.height ∧ u.cells p.1 p.2 = 1 := by
    intro p hp
    obtain ⟨a, b⟩ := p
    have hm := (cellsAlive_mem u a b).mp hp
    obtain ⟨hw, hh, hcells⟩ := hWF
    rcases hcells a hm.1 b hm.2.1 with h0 | h1
    · exact absurd h0 hm.2.2
    · exact ⟨hm.1, hm.2.1, h1⟩
  obtain ⟨gf, hgf⟩ := processAll_ok u hWF (cellsAlive u)
    (fun p hp => ⟨(hmem p hp).1, (hmem p hp).2.1⟩) (reshape u 0 0)
  rw [hgf]
  have hfin := processAll_main u x y nh n hWF hx hy halive hnh hcnt
    (cellsAlive u) (cellsAlive_pairwise u) hmem
    ((cellsAlive_mem u x y).mpr ⟨hx, hy, by rw [halive]; norm_num⟩)
    (reshape u 0 0) gf hgf
  dsimp only [Except.map]
  rw [hfin]

/-- Witness for C2 at the 2 × 2 block in `block4U`: cell `(1,1)` has
neighbour count 3 and survives. -/
theorem c2_alive_final_exactly_three_witness :
    (generationStep block4U).map (fun v => v.cells 1 1) =
      .ok (if (3 : Int) = 3 then (1 : Int) else 0) :=
  c2_alive_final_exactly_three block4U 1 1 [[0, 0, 0], [0, 1, 1], [0, 1, 1]] 3
    (by decide) (by decide) (by decide) (by decide) (by rfl) (by rfl)

/-- C1 (code bug): in the dead-neighbour pass, line 339 recomputes
`self.nhood(x, y)` — the neighbourhood of the *alive centre* again, not of
the dead neighbour — so the birth decision tests the centre's count, not
the dead cell's own count.  On the blinker, the dead cell `(2, 1)` has
exactly 3 live neighbours of its own (so the claim mandates a birth), yet
the next grid leaves it DEAD, because no adjacent alive cell has count 3. -/
theorem c1_blinker_dead_cell_not_born :
    (generationStep blinkerU).map (fun v => v.cells 2 1) = .ok 0 ∧
    (nhoodMoore blinkerU 2 1 1).bind
      (fun m => countNhood blinkerU (some m)) = .ok 3 := by
  constructor
  · rfl
  · rfl

/-- C3 counterexample: on a `boundary=False` universe, a direct get with
an out-of-range x silently returns `None` instead of raising any
IndexError-kind fault. -/
theorem c3_counterexample : getItem edge3U 5 0 = .ok none := rfl

/-- C3 amended: for a coordinate exceeding an upper bound, a direct *set*
always raises `ConwayIndexError` naming the axis (width checked first) and
carrying the offending value; a direct *get* does so only when
`boundary=True`, and silently returns `None` when `boundary=False`.
(Negative in-range coordinates are not rejected at all — see C10.) -/
theorem c3_upper_bound_faults (u : Universe) (x y v : Int) :
    ((u.width : Int) ≤ x →
      setItem u x y v = .error (.conwayIndexError .width x) ∧
      (u.boundary = true → getItem u x y = .error (.conwayIndexError .width x)) ∧
      (u.boundary = false → getItem u x y = .ok none)) ∧
    (-(u.width : Int) ≤ x → x < (u.width : Int) → (u.height : Int) ≤ y →
      setItem u x y v = .error (.conwayIndexError .height y) ∧
      (u.boundary = true → getItem u x y = .error (.conwayIndexError .height y)) ∧
      (u.boundary = false → getItem u x y = .ok none)) := by
  constructor
  · intro hx
    refine ⟨?_, ?_, ?_⟩
    · unfold setItem
      rw [npIndex_ge x u.width hx]
      rw [if_pos (by omega)]
    · intro hb
      unfold getItem
      rw [npIndex_ge x u.width hx]
      rw [if_neg (by simp [hb]), if_pos (by omega)]
    · intro hb
      unfold getItem
      rw [npIndex_ge x u.width hx]
      rw [if_pos hb]
  · intro hx0 hx1 hy
    have hxi : npIndex x u.width = some (x % (u.width : Int)).toNat := by
      rcases le_or_lt 0 x with h | h
      · rw [npIndex_inRange x u.width h hx1, Int.emod_eq_of_lt h hx1]
      · rw [npIndex_neg x u.width hx0 h]
        have hrw : x % (u.width : Int) = (x + u.width) % (u.width : Int) :=
          (Int.add_emod_self).symm
        rw [hrw, Int.emod_eq_of_lt (by omega) (by omega)]
    refine ⟨?_, ?_, ?_⟩
    · unfold setItem
      rw [hxi, npIndex_ge y u.height hy]
      rw [if_neg (by omega), if_pos (by omega)]
    · intro hb
      unfold getItem
      rw [hxi, npIndex_ge y u.height hy]
      rw [if_neg (by simp [hb]), if_neg (by omega), if_pos (by omega)]
    · intro hb
      unfold getItem
      rw [hxi, npIndex_ge y u.height hy]
      rw [if_pos hb]

/-- Witness for C3 amended at concrete inputs on 3 × 3 universes. -/
theorem c3_upper_bound_faults_witness :
    setItem edge3U 5 0 1 = .error (.conwayIndexError .width 5) ∧
    getItem edge3U 5 0 = .ok none ∧
    setItem torus3U 0 7 1 = .error (.conwayIndexError .height 7) ∧
    getItem torus3U 0 7 = .error (.conwayIndexError .height 7) :=
  ⟨((c3_upper_bound_faults edge3U 5 0 1).1 (by decide)).1,
   ((c3_upper_bound_faults edge3U 5 0 1).1 (by decide)).2.2 (by rfl),
   ((c3_upper_bound_faults torus3U 0 7 1).2 (by decide) (by decide) (by decide)).1,
   ((c3_upper_bound_faults torus3U 0 7 1).2 (by decide) (by decide)
     (by decide)).2.1 (by rfl)⟩

/-- C4 (code bug): `count_nhood()` with no matrix is documented ("Count
life in the whole Universe") and used by the driver as the whole-grid
ALIVE count, but the centre-cell decrement still runs: on a 3 × 3 grid
whose only alive cell is `(1, 1)` (which is the `(middle_x, middle_y)`
cell), it returns 0 even though exactly one cell is alive. -/
theorem c4_whole_grid_count_decremented :
    countNhood centerAliveU none = .ok 0 ∧
    (cellsAlive centerAliveU).length = 1 := by
  constructor
  · rfl
  · rfl

/-- C5 counterexample: with `boundary=False` on a 3 × 3 grid, the
neighbourhood of `(0, 0)` at depth 1 is `[[0,0,-1],[-1,0,0],[-1,0,0]]`:
in row 0 (raw x = -1, entirely out of range) the positions `(0,0)` and
`(0,1)` correspond to out-of-range coordinates `(-1,-1)` and `(-1,0)` yet
hold DEAD (0), not the OUT_OF_BOUNDS sentinel; the single sentinel sits at
the end of the row. -/
theorem c5_counterexample :
    nhoodMoore edge3U 0 0 1 = .ok [[0, 0, -1], [-1, 0, 0], [-1, 0, 0]] := rfl

/-- C5 amended: with `boundary=False` no out-of-range position is ever
read from the grid (in-range positions are read raw, unwrapped), and an
out-of-range translated y (inside an in-range row) yields OUT_OF_BOUNDS at
its own cell; but a row whose translated x is out of range holds
OUT_OF_BOUNDS only in its *last* column (the `moore[moore_x, -1] = -1`
write), its other cells keeping the DEAD initial value. -/
theorem c5_boundary_false_layout (u : Universe) (x y : Int) (depth : Nat)
    (hb : u.boundary = false) :
    nhoodMoore u x y depth = .ok ((List.range (2 * depth + 1)).map (fun (xd : Nat) =>
      if x - depth + xd < 0 ∨ x - depth + xd > (u.width : Int) - 1 then
        List.replicate (2 * depth) 0 ++ [-1]
      else (List.range (2 * depth + 1)).map (fun (yd : Nat) =>
        if y - depth + yd < 0 ∨ y - depth + yd > (u.height : Int) - 1 then -1
        else u.cells (x - depth + xd).toNat (y - depth + yd).toNat))) :=
  nhoodMoore_false u x y depth hb

/-- Witness for C5 amended at `(0, 0)`, depth 1, on the `boundary=False`
3 × 3 universe. -/
theorem c5_boundary_false_layout_witness :
    nhoodMoore edge3U 0 0 1 =
      .ok ((List.range (2 * 1 + 1)).map (fun (xd : Nat) =>
        if (0 : Int) - 1 + xd < 0 ∨ (0 : Int) - 1 + xd > (edge3U.width : Int) - 1 then
          List.replicate (2 * 1) 0 ++ [-1]
        else (List.range (2 * 1 + 1)).map (fun (yd : Nat) =>
          if (0 : Int) - 1 + yd < 0 ∨ (0 : Int) - 1 + yd > (edge3U.height : Int) - 1
          then -1
          else edge3U.cells ((0 : Int) - 1 + xd).toNat ((0 : Int) - 1 + yd).toNat))) :=
  c5_boundary_false_layout edge3U 0 0 1 rfl

/-- C6: with `boundary=True` and depth within the single-wrap range, the
Moore matrix holds no OUT_OF_BOUNDS sentinel (every cell is a wrapped grid
read, hence DEAD or ALIVE), and translation wraps consistently:
`translate(-1, width) = width - 1` and `translate(width, width) = 0`. -/
theorem c6_boundary_true_no_oob (u : Universe) (x y : Int) (depth : Nat)
    (hb : u.boundary = true) (hWF : WF u)
    (hx0 : 0 ≤ x) (hx : x < (u.width : Int)) (hy0 : 0 ≤ y) (hy : y < (u.height : Int))
    (hdw : depth ≤ u.width) (hdh : depth ≤ u.height) :
    (∃ m, nhoodMoore u x y depth = .ok m ∧
      ∀ row ∈ m, ∀ v ∈ row, v ≠ CELL_INACTIVE) ∧
    translateCoordinate true (-1) u.width = (u.width : Int) - 1 ∧
    translateCoordinate true (u.width : Int) u.width = 0 := by
  obtain ⟨hw, hh, hcells⟩ := hWF
  refine ⟨⟨_, nhoodMoore_true u x y depth hb hw hh hx0 hx hy0 hy hdw hdh, ?_⟩, ?_, ?_⟩
  · intro row hrow v hv
    rw [List.mem_map] at hrow
    obtain ⟨xd, hxd, rfl⟩ := hrow
    rw [List.mem_map] at hv
    obtain ⟨yd, hyd, rfl⟩ := hv
    rw [List.mem_range] at hxd hyd
    have htx := translate_true_mem (x - depth + xd) u.width hw (by omega) (by omega)
    have hty := translate_true_mem (y - depth + yd) u.height hh (by omega) (by omega)
    rcases hcells (translateCoordinate true (x - depth + xd) u.width).toNat (by omega)
      (translateCoordinate true (y - depth + yd) u.height).toNat (by omega) with h | h
    · rw [h]
      unfold CELL_INACTIVE
      norm_num
    · rw [h]
      unfold CELL_INACTIVE
      norm_num
  · rw [translate_true_neg (-1) u.width (by norm_num)]
    ring
  · rcases Nat.eq_zero_or_pos u.width with h0 | hpos
    · rw [h0]
      rfl
    · rw [translate_true_high (u.width : Int) u.width (by positivity) (by omega)]
      ring

/-- Witness for C6 on the toroidal 4 × 4 block universe at `(0, 0)`,
depth 1. -/
theorem c6_boundary_true_no_oob_witness :
    (∃ m, nhoodMoore block4U 0 0 1 = .ok m ∧
      ∀ row ∈ m, ∀ v ∈ row, v ≠ CELL_INACTIVE) ∧
    translateCoordinate true (-1) block4U.width = (block4U.width : Int) - 1 ∧
    translateCoordinate true (block4U.width : Int) block4U.width = 0 :=
  c6_boundary_true_no_oob block4U 0 0 1 rfl (by decide) (by decide) (by decide)
    (by decide) (by decide) (by decide) (by decide)

/-- C8 counterexample: the fault raised on a width assignment is Python's
builtin `AttributeError` (getter-only property), which is not one of the
`ConwayUniverseError` classes; no ConfigurationError-kind fault exists in
the code and `ERR_DIMENSIONS` is never raised. -/
theorem c8_counterexample :
    setWidth torus3U 7 = .error .attributeError ∧
    isConwayError .attributeError = false := ⟨rfl, rfl⟩

/-- C8 amended: any attempt to change `width` or `height` after
construction fails — but with a plain `AttributeError` (the properties
define no setters), not a Conway-specific ConfigurationError-kind fault. -/
theorem c8_dimensions_attribute_error (u : Universe) (v : Nat) :
    setWidth u v = .error .attributeError ∧
    setHeight u v = .error .attributeError ∧
    isConwayError .attributeError = false := ⟨rfl, rfl, rfl⟩

/-- C9: `nhood` with type `"vN"` returns no matrix at all (`None`),
because `nhood_vN` computes the masked matrix but never returns it; and
`nhood` with any type other than `"MOORE"`/`"vN"` also returns `None`. -/
theorem c9_vN_returns_none (u : Universe) (x y : Int) (depth : Nat)
    (m : List (List Int)) (t : String)
    (hm : nhoodMoore u x y depth = .ok m) (ht1 : t ≠ "MOORE") (ht2 : t ≠ "vN") :
    nhood u x y depth "vN" = .ok none ∧ nhood u x y depth t = .ok none := by
  constructor
  · unfold nhood
    rw [if_neg (by decide), if_pos rfl]
    unfold nhood_vN
    rw [hm]
  · unfold nhood
    rw [if_neg ht1, if_neg ht2]

/-- Witness for C9 at `(0, 0)`, depth 1, on the `boundary=False` 3 × 3
universe, with the unknown type string `"X"`. -/
theorem c9_vN_returns_none_witness :
    nhood edge3U 0 0 1 "vN" = .ok none ∧ nhood edge3U 0 0 1 "X" = .ok none :=
  c9_vN_returns_none edge3U 0 0 1 [[0, 0, -1], [-1, 0, 0], [-1, 0, 0]] "X"
    (by rfl) (by decide) (by decide)

/-- C10: negative coordinates within one dimension of the grid are not
rejected by direct get/set: numpy index aliasing silently reads and
writes the cell at `(x mod width, y mod height)` — the opposite edge. -/
theorem c10_negative_aliasing (u : Universe) (x y v : Int)
    (hw : 0 < u.width) (hh : 0 < u.height)
    (hx0 : -(u.width : Int) ≤ x) (hx1 : x < (u.width : Int))
    (hy0 : -(u.height : Int) ≤ y) (hy1 : y < (u.height : Int)) :
    getItem u x y = .ok (some (u.cells (x % (u.width : Int)).toNat
      (y % (u.height : Int)).toNat)) ∧
    ∃ u', setItem u x y v = .ok u' ∧
      u'.cells (x % (u.width : Int)).toNat (y % (u.height : Int)).toNat = v := by
  constructor
  · unfold getItem
    rw [npIndex_emod x u.width hw hx0 hx1, npIndex_emod y u.height hh hy0 hy1]
  · unfold setItem
    rw [npIndex_emod x u.width hw hx0 hx1, npIndex_emod y u.height hh hy0 hy1]
    refine ⟨_, rfl, ?_⟩
    dsimp only
    rw [if_pos ⟨rfl, rfl⟩]

/-- Witness for C10: reading and writing `(-1, -2)` on a 3 × 3 torus
aliases to `(2, 1)`. -/
theorem c10_negative_aliasing_witness :
    getItem torus3U (-1) (-2) = .ok (some (torus3U.cells
      ((-1 : Int) % (torus3U.width : Int)).toNat
      ((-2 : Int) % (torus3U.height : Int)).toNat)) ∧
    ∃ u', setItem torus3U (-1) (-2) 1 = .ok u' ∧
      u'.cells ((-1 : Int) % (torus3U.width : Int)).toNat
        ((-2 : Int) % (torus3U.height : Int)).toNat = 1 :=
  c10_negative_aliasing torus3U (-1) (-2) 1 (by decide) (by decide) (by decide)
    (by decide) (by decide) (by decide)

/-- C7: each generation (a) starts from a freshly allocated all-dead
grid, (b) is exactly the fold of the per-cell processing of the old
grid's alive cells over that fresh grid, installed into the universe by a
single assignment, and (c) reads only the old grid: two universes with the
same dimensions, boundary mode and cells (regardless of `cycles`/`quiet`)
produce identical next grids. -/
theorem c7_generation_from_scratch :
    (∀ u : Universe, ∀ w h i j : Nat, reshape u w h i j = 0) ∧
    (∀ u : Universe, generationStep u =
      match processAll u (reshape u 0 0) (cellsAlive u) with
      | .error e => .error e
      | .ok g => .ok { u with cells := g }) ∧
    (∀ u : Universe, ∀ c : Nat, ∀ q : Bool,
      (generationStep { u with cycles := c, quiet := q }).map (fun v => v.cells) =
        (generationStep u).map (fun v => v.cells)) := by
  refine ⟨fun _ _ _ _ _ => rfl, fun _ => rfl, ?_⟩
  intro u c q
  cases u
  exact generationStep_fields _ _ _ _ _ _ _ _

end Conway
